import Mathlib

/-!
# Alexa skills kit for Go: game-engine directive builders, Lambda adapter, example dispatch

A shallow embedding of `alexa/game_engine.go`, `alexa/lambda.go` and
`example/helloworld/main.go`.

Conventions of the embedding:

* Go pointers to objects allocated by the builders are references (`Ref`) into an explicit
  `Heap`; a method whose receiver is such a pointer takes the heap and the reference and returns
  the new heap, or `none` where Go would panic (nil map write, reference that holds no object of
  the receiver's type).
* A Go slice is `Slice α`: `none` is the nil slice, `some l` a non-nil slice with elements `l`.
* A Go map is `GoMap V`: `none` is the nil map, `some m` a non-nil map.
* Slices and maps carry their content; the sharing of a backing array or of a map between two
  holders is not represented.
* Go `int` is `Int`; no arithmetic is performed on any of them.
* Section numbers in doc comments refer to the specification of the repository.
* A Go result pair `(value, error)` is an `Except`: `.error e` stands for `(nil, e)` and `.ok v`
  for `(v, nil)`; a bare `error` result is an `Option`.
-/

namespace Alexa

/-! ## Slices, maps, references -/

/-- Reference to a heap object (a Go pointer). -/
abbrev Ref := Nat

/-- Go slice: `none` is nil. -/
abbrev Slice (α : Type) := Option (List α)

/-- Elements of a slice; the nil slice has none. -/
def sliceElems {α : Type} : Slice α → List α
  | none => []
  | some l => l

/-- Go builtin `append(s, x)`: the result is never nil. -/
def goAppend {α : Type} (s : Slice α) (x : α) : Slice α :=
  some (sliceElems s ++ [x])

/-- Go map with string keys: `none` is the nil map. -/
abbrev GoMap (V : Type) := Option (Finmap (fun _ : String => V))

/-- Go builtin `make(map[string]V)`. -/
def makeMap (V : Type) : GoMap V := some ∅

/-- Go `m[k]` read: a missing key, or a nil map, yields nothing. -/
def mapIndex {V : Type} (m : GoMap V) (k : String) : Option V :=
  match m with
  | none => none
  | some f => f.lookup k

/-- Go `m[k] = v`: panics (here `none`) on a nil map. -/
def mapAssign {V : Type} (m : GoMap V) (k : String) (v : V) : Option (GoMap V) :=
  match m with
  | none => none
  | some f => some (some (f.insert k v))

/-- Go builtin `len(m)`. -/
def mapLen {V : Type} (m : GoMap V) : Nat :=
  match m with
  | none => 0
  | some f => f.keys.card

/-! ## Data model (`game_engine.go`) -/

/-- Go struct `GameEngineStartInputDirective`; `interface{}` slots hold references. -/
structure GameEngineStartInputDirective where
  Type_ : String := ""
  Timeout : Int := 0
  MaximumHistoryLength : Int := 0
  Proxies : Slice Ref := none
  Recognizers : GoMap Ref := none
  Events : GoMap Ref := none
  deriving DecidableEq

/-- Go struct `GameEngineStopInputHandlerDirective`. -/
structure GameEngineStopInputHandlerDirective where
  Type_ : String := ""
  OriginatingRequestID : String := ""
  deriving DecidableEq

/-- Go struct `GameEnginePattern`. -/
structure GameEnginePattern where
  GadgetIds : Slice String := none
  Colors : Slice String := none
  Action : String := ""
  deriving DecidableEq

/-- Go struct `GameEnginePatternRecognizer`. -/
structure GameEnginePatternRecognizer where
  Type_ : String := ""
  Anchor : String := ""
  Fuzzy : Bool := false
  GadgetIds : Slice String := none
  Actions : Slice Ref := none
  Pattern : Slice GameEnginePattern := none
  deriving DecidableEq

/-- Go struct `GameEngineDeviationRecognizer`. -/
structure GameEngineDeviationRecognizer where
  Type_ : String := ""
  Recognizer : String := ""
  deriving DecidableEq

/-- Go struct `GameEngineProgressRecognizer`. -/
structure GameEngineProgressRecognizer where
  Type_ : String := ""
  Recognizer : String := ""
  Completion : Int := 0
  deriving DecidableEq

/-- Go struct `GameEngineRegistrationEvent`. -/
structure GameEngineRegistrationEvent where
  Meets : Slice String := none
  Fails : Slice String := none
  Reports : String := ""
  ShouldEndInputHandler : Bool := false
  MaximumInvocations : Int := 0
  TriggerTimeMilliseconds : Int := 0
  deriving DecidableEq

/-- Objects the builders allocate. -/
inductive Obj where
  | startInput (d : GameEngineStartInputDirective)
  | stopInput (d : GameEngineStopInputHandlerDirective)
  | patternRec (r : GameEnginePatternRecognizer)
  | deviationRec (r : GameEngineDeviationRecognizer)
  | progressRec (r : GameEngineProgressRecognizer)
  | event (e : GameEngineRegistrationEvent)
  deriving DecidableEq

/-- The heap: the object at reference `a` is `h[a]?`. -/
abbrev Heap := List Obj

/-- Allocation (`&T{...}`): the object is placed at a fresh reference, which is returned. -/
def Heap.alloc (h : Heap) (o : Obj) : Heap × Ref :=
  (h ++ [o], h.length)

/-- Write through a pointer. -/
def Heap.store (h : Heap) (a : Ref) (o : Obj) : Heap :=
  h.set a o

/-! ## Response builder -/

/-- Modelled from the spec: the card struct is defined outside the embedded files; section 4.3 has
`SimpleCard(title, content)` set "a visual card", so a card is its title and its content. -/
structure Card where
  Title : String := ""
  Content : String := ""
  deriving DecidableEq

/-- Modelled from the spec: the `Response` struct is defined outside the embedded files; section 3
has it hold "optional output-speech text, an optional reprompt, an optional card, and an ordered
sequence of directives". Directives are held by reference. -/
structure Response where
  OutputSpeech : Option String := none
  Reprompt : Option String := none
  Card : Option Card := none
  Directives : Slice Ref := none
  deriving DecidableEq

/-- Modelled from the spec: `Response.AddDirective` is defined outside the embedded files; section
4.3 has it append "one directive to the ordered directive sequence, preserving call order". -/
def Response.AddDirective (r : Response) (d : Ref) : Response :=
  { r with Directives := goAppend r.Directives d }

/-- Modelled from the spec: `Response.SetOutputSpeech` is defined outside the embedded files; section
4.3 has it set or overwrite the spoken response. -/
def Response.SetOutputSpeech (r : Response) (text : String) : Response :=
  { r with OutputSpeech := some text }

/-- Modelled from the spec: `Response.SetReprompt` is defined outside the embedded files; section 4.3
has it set the reprompt. -/
def Response.SetReprompt (r : Response) (text : String) : Response :=
  { r with Reprompt := some text }

/-- Modelled from the spec: `Response.SimpleCard` is defined outside the embedded files; section 4.3
has it set a visual card from a title and a content. -/
def Response.SimpleCard (r : Response) (title content : String) : Response :=
  { r with Card := some { Title := title, Content := content } }

/-! ## Directive builders (`game_engine.go`) -/

/-- Go `(r *Response) AddGameEngineStartInputDirective(timeout)`: the receiver is passed as a
value and returned updated, together with the new heap and the reference to the directive. -/
def Response.AddGameEngineStartInputDirective (r : Response) (h : Heap) (timeout : Int) :
    Heap × Response × Ref :=
  let (h1, d) := h.alloc (.startInput
    { Type_ := "GameEngine.StartInputHandler", Timeout := timeout, Recognizers := makeMap Ref })
  (h1, r.AddDirective d, d)

/-- Go `(r *Response) AddGameEngineStopInputHandlerDirective(originatingRequestID)`. -/
def Response.AddGameEngineStopInputHandlerDirective (r : Response) (h : Heap)
    (originatingRequestID : String) : Heap × Response × Ref :=
  let (h1, d) := h.alloc (.stopInput
    { Type_ := "GameEngine.StopInputHandler", OriginatingRequestID := originatingRequestID })
  (h1, r.AddDirective d, d)

/-- Go `(sid *GameEngineStartInputDirective) AddPatternRecognizer(name)`. -/
def GameEngineStartInputDirective.AddPatternRecognizer (sid : Ref) (h : Heap) (name : String) :
    Option (Heap × Ref) :=
  let (h1, recognizer) := h.alloc (.patternRec { Type_ := "match", Pattern := some [] })
  match h1[sid]? with
  | some (.startInput d) =>
    match mapAssign d.Recognizers name recognizer with
    | some m => some (h1.store sid (.startInput { d with Recognizers := m }), recognizer)
    | none => none
  | _ => none

/-- Go `(gep *GameEnginePatternRecognizer) AddPattern(gadgetIds, colors, action)`. -/
def GameEnginePatternRecognizer.AddPattern (gep : Ref) (h : Heap)
    (gadgetIds colors : Slice String) (action : String) : Option Heap :=
  let pattern : GameEnginePattern := { GadgetIds := gadgetIds, Colors := colors, Action := action }
  match h[gep]? with
  | some (.patternRec r) =>
    some (h.store gep (.patternRec { r with Pattern := goAppend r.Pattern pattern }))
  | _ => none

/-- Go `(sid *GameEngineStartInputDirective) AddDeviationRecognizer(name, recognizerName)`. -/
def GameEngineStartInputDirective.AddDeviationRecognizer (sid : Ref) (h : Heap)
    (name recognizerName : String) : Option (Heap × Ref) :=
  let (h1, recognizer) := h.alloc (.deviationRec
    { Type_ := "deviation", Recognizer := recognizerName })
  match h1[sid]? with
  | some (.startInput d) =>
    match mapAssign d.Recognizers name recognizer with
    | some m => some (h1.store sid (.startInput { d with Recognizers := m }), recognizer)
    | none => none
  | _ => none

/-- Go `(sid *GameEngineStartInputDirective) AddEvent(name, shouldEndInputHandler,
meetsRecognizers)`. -/
def GameEngineStartInputDirective.AddEvent (sid : Ref) (h : Heap) (name : String)
    (shouldEndInputHandler : Bool) (meetsRecognizers : Slice String) : Option (Heap × Ref) :=
  let (h1, event) := h.alloc (.event
    { Meets := meetsRecognizers, ShouldEndInputHandler := shouldEndInputHandler })
  match h1[sid]? with
  | some (.startInput d) =>
    let d1 : GameEngineStartInputDirective :=
      match d.Events with
      | none => { d with Events := makeMap Ref }
      | some _ => d
    match mapAssign d1.Events name event with
    | some m => some (h1.store sid (.startInput { d1 with Events := m }), event)
    | none => none
  | _ => none

/-- Go `(sid *GameEngineStartInputDirective) AddProgressRecognizer(name, recognizerName,
completion)`. -/
def GameEngineStartInputDirective.AddProgressRecognizer (sid : Ref) (h : Heap)
    (name recognizerName : String) (completion : Int) : Option (Heap × Ref) :=
  let (h1, recognizer) := h.alloc (.progressRec
    { Type_ := "progress", Recognizer := recognizerName, Completion := completion })
  match h1[sid]? with
  | some (.startInput d) =>
    match mapAssign d.Recognizers name recognizer with
    | some m => some (h1.store sid (.startInput { d with Recognizers := m }), recognizer)
    | none => none
  | _ => none

/-! ## Lambda adapter (`lambda.go`) -/

/-- Modelled from the spec: the `Skill` struct is defined outside the embedded files; section 3
lists its content as "application identifier, verbosity flag, validation-skip flag, and one
callback per request-type/intent-type". The callback table is kept as one field of an
unspecified type. -/
structure Skill (Callbacks : Type) where
  ApplicationID : String
  SkipValidation : Bool
  Verbose : Bool
  callbacks : Callbacks

/-- What `GetLambdaSkillHandler` calls without defining it: the JSON library and the two
`RequestEnvelope` methods, which are defined outside the embedded files.

* `marshalEvent` is `json.Marshal(event)`, bytes read as a string;
* `decode` is `json.NewDecoder(bytes.NewReader(bodyBytes)).Decode(&requestEnvelope)`;
* `isRequestValid` is `requestEnvelope.isRequestValid(applicationID)`;
* `dispatch` is what `requestEnvelope.handleRequest` computes from the callback table;
* `marshalResponse` is `json.Marshal(response)`. -/
structure Runtime (Event Envelope Resp Err Callbacks : Type) where
  marshalEvent : Event → Except Err String
  decode : String → Except Err Envelope
  isRequestValid : Envelope → String → Option Err
  dispatch : Envelope → Callbacks → Except Err Resp
  marshalResponse : Resp → Except Err String

/-- Modelled from the spec: `RequestEnvelope.handleRequest(skill)` is not among the available
sources; section 4.2 gives the dispatcher's contract as a function of the envelope "and the
Skill's registered callback table", so of the skill it reads the callbacks only. -/
def handleRequest {Event Envelope Resp Err Callbacks : Type}
    (rt : Runtime Event Envelope Resp Err Callbacks) (requestEnvelope : Envelope)
    (skill : Skill Callbacks) : Except Err Resp :=
  rt.dispatch requestEnvelope skill.callbacks

/-- What a run of the handler does besides returning: lines handed to `log.Println` (as the
list of its operands) and calls of the two `RequestEnvelope` methods. -/
inductive Effect (Envelope : Type) where
  | log (operands : List String)
  | isRequestValid (requestEnvelope : Envelope) (applicationID : String)
  | handleRequest (requestEnvelope : Envelope)

/-- Whether an effect is a call of `isRequestValid`. -/
def Effect.isValidation {Envelope : Type} : Effect Envelope → Bool
  | .isRequestValid _ _ => true
  | _ => false

/-- Whether an effect is a call of `handleRequest`. -/
def Effect.isDispatch {Envelope : Type} : Effect Envelope → Bool
  | .handleRequest _ => true
  | _ => false

/-- Go `bodyBytes, _ := json.Marshal(event)`: the error is dropped, the bytes are then empty. -/
def bodyBytes {Event Envelope Resp Err Callbacks : Type}
    (rt : Runtime Event Envelope Resp Err Callbacks) (event : Event) : String :=
  match rt.marshalEvent event with
  | .ok b => b
  | .error _ => ""

/-- Go `(skill *Skill) GetLambdaSkillHandler()`, applied to an event: the returned
`(result, error)` and the effects of the run, in order. -/
def Skill.GetLambdaSkillHandler {Event Envelope Resp Err Callbacks : Type}
    (skill : Skill Callbacks) (rt : Runtime Event Envelope Resp Err Callbacks) (event : Event) :
    Except Err Resp × List (Effect Envelope) :=
  let body := bodyBytes rt event
  let t1 : List (Effect Envelope) :=
    if skill.Verbose then [.log ["--> Request: ", body]] else []
  match rt.decode body with
  | .error err => (.error err, t1)
  | .ok requestEnvelope =>
    let checked : Option Err × List (Effect Envelope) :=
      if !skill.SkipValidation then
        (rt.isRequestValid requestEnvelope skill.ApplicationID,
          t1 ++ [.isRequestValid requestEnvelope skill.ApplicationID])
      else (none, t1)
    match checked.1 with
    | some err => (.error err, checked.2)
    | none =>
      let t3 := checked.2 ++ [.handleRequest requestEnvelope]
      match handleRequest rt requestEnvelope skill with
      | .error err => (.error err, t3)
      | .ok response =>
        if skill.Verbose then
          match rt.marshalResponse response with
          | .error err => (.error err, t3)
          | .ok json => (.ok response, t3 ++ [.log ["--> Response: ", json]])
        else (.ok response, t3)

/-! ## Example skill (`example/helloworld/main.go`) -/

/-- Modelled from the spec: the intent struct is defined outside the embedded files; section 3 has
an intent request carry "an intent name and a mapping of slot name → slot value". -/
structure Intent where
  Name : String := ""
  Slots : List (String × String) := []
  deriving DecidableEq

/-- Modelled from the spec: the `IntentRequest` struct is defined outside the embedded files; the
example reads `request.Intent.Name`. -/
structure IntentRequest where
  Intent : Intent := {}
  deriving DecidableEq

/-- Modelled from the spec: the `OutgoingResponse` struct is defined outside the embedded files; the
example reaches the response builder as `outgoingResponse.Response`. -/
structure OutgoingResponse where
  Response : Response := {}
  deriving DecidableEq

/-- Go `helloWorldIntentHandler(request, outgoingResponse)`: the response it leaves. -/
def helloWorldIntentHandler (_request : IntentRequest) (outgoingResponse : OutgoingResponse) :
    OutgoingResponse :=
  let speechText := "Hello world"
  let o1 := { outgoingResponse with
    Response := outgoingResponse.Response.SetOutputSpeech speechText }
  { o1 with Response := o1.Response.SimpleCard "HelloWorld" speechText }

/-- Go `cancelAndStopIntentHandler(request, outgoingResponse)`. -/
def cancelAndStopIntentHandler (_request : IntentRequest) (outgoingResponse : OutgoingResponse) :
    OutgoingResponse :=
  let speechText := "Goodbye"
  let o1 := { outgoingResponse with
    Response := outgoingResponse.Response.SetOutputSpeech speechText }
  { o1 with Response := o1.Response.SimpleCard "HelloWorld" speechText }

/-- Go `helpIntentHandler(request, outgoingResponse)`. -/
def helpIntentHandler (_request : IntentRequest) (outgoingResponse : OutgoingResponse) :
    OutgoingResponse :=
  let speechText := "You can say hello to me!"
  let o1 := { outgoingResponse with
    Response := outgoingResponse.Response.SetOutputSpeech speechText }
  let o2 := { o1 with Response := o1.Response.SetReprompt speechText }
  { o2 with Response := o2.Response.SimpleCard "HelloWorld" speechText }

/-- Go `intentDispatchHandler(requestEnvelope, request, response)`: the response it leaves and
the lines it hands to `log.Println`, each as the list of its operands. -/
def intentDispatchHandler {RequestEnvelope : Type} (_requestEnvelope : RequestEnvelope)
    (request : IntentRequest) (response : OutgoingResponse) :
    OutgoingResponse × List (List String) :=
  if request.Intent.Name = "HelloWorldIntent" then
    (helloWorldIntentHandler request response, [])
  else if request.Intent.Name = "AMAZON.StopIntent" then
    (cancelAndStopIntentHandler request response, [])
  else if request.Intent.Name = "AMAZON.CancelIntent" then
    (cancelAndStopIntentHandler request response, [])
  else if request.Intent.Name = "AMAZON.HelpIntent" then
    (helpIntentHandler request response, [])
  else
    (response, [["Unknown intent!", request.Intent.Name]])

/-! ## Postconditions used in the statements -/

/-- Postcondition of a recognizer builder called with `name` on the directive `d` held at `sid`
in the heap `h`, where `o` is the recognizer the builder constructs: the call returns a new
reference `p` holding `o`; the directive's mapping sends `name` to `p` and every other name to
what it was sent to before; its length has grown by one exactly when `name` was absent; nothing
else in the directive and no other object of the heap has changed. -/
def RegistersRecognizer (h : Heap) (sid : Ref) (d : GameEngineStartInputDirective)
    (name : String) (o : Obj) (res : Option (Heap × Ref)) : Prop :=
  ∃ h1 p d1, res = some (h1, p) ∧ h[p]? = none ∧ h1[p]? = some o ∧
    h1[sid]? = some (.startInput d1) ∧
    mapIndex d1.Recognizers name = some p ∧
    (∀ k, k ≠ name → mapIndex d1.Recognizers k = mapIndex d.Recognizers k) ∧
    mapLen d1.Recognizers =
      (if mapIndex d.Recognizers name = none then mapLen d.Recognizers + 1
       else mapLen d.Recognizers) ∧
    d1 = { d with Recognizers := d1.Recognizers } ∧
    ∀ a, a ≠ sid → a ≠ p → h1[a]? = h[a]?

/-- The pattern step built by `AddPattern` from its three arguments. -/
def patternStep (s : Slice String × Slice String × String) : GameEnginePattern :=
  { GadgetIds := s.1, Colors := s.2.1, Action := s.2.2 }

/-- Successive `AddPattern` calls on the recognizer at `gep`, one per element of `steps`, in
order. -/
def addPatterns (gep : Ref) (h : Heap) (steps : List (Slice String × Slice String × String)) :
    Option Heap :=
  steps.foldlM (fun h1 s => GameEnginePatternRecognizer.AddPattern gep h1 s.1 s.2.1 s.2.2) h

/-! ## Sample data -/

/-- A start-input directive whose recognizer "r1" is held at reference 1. -/
def sampleDirective : GameEngineStartInputDirective :=
  { Type_ := "GameEngine.StartInputHandler", Timeout := 5000,
    Recognizers := some (Finmap.singleton "r1" 1) }

/-- A pattern recognizer holding one step. -/
def sampleRecognizer : GameEnginePatternRecognizer :=
  { Type_ := "match", Fuzzy := true,
    Pattern := some [{ Colors := some ["FF0000"], Action := "down" }] }

/-- A heap with `sampleDirective` at reference 0, a deviation recognizer at reference 1 and
`sampleRecognizer` at reference 2. -/
def sampleHeap : Heap :=
  [.startInput sampleDirective,
   .deviationRec { Type_ := "deviation", Recognizer := "r0" },
   .patternRec sampleRecognizer]

/-- The heap built from the empty one by `AddGameEngineStartInputDirective(5000)` followed by
`AddPatternRecognizer("r1")`: the directive at reference 0, the fresh recognizer at 1. -/
def builtHeap : Heap :=
  [.startInput { Type_ := "GameEngine.StartInputHandler", Timeout := 5000,
                 Recognizers := some (Finmap.singleton "r1" 1) },
   .patternRec { Type_ := "match", Pattern := some [] }]

/-- Errors of `sampleRuntime`. -/
inductive SampleErr where
  | decode
  | authentication
  | encode
  deriving DecidableEq

/-- Responses of `sampleRuntime`: a spoken text, or a response that `json.Marshal` rejects, as
one is when a callback has stored a function or a channel in the `map[string]interface{}` of a
start-input directive's Recognizers. -/
inductive SampleResp where
  | speech (text : String)
  | unencodable
  deriving DecidableEq

/-- A runtime in which an event is given by its JSON text and an envelope by the application
identifier it declares; the empty text does not decode, an envelope is valid when it declares
the expected identifier, and the callbacks answer the identifier "amzn1.ask.skill.games" with a
response that cannot be marshalled and any other with a spoken text. -/
def sampleRuntime : Runtime String String SampleResp SampleErr Unit where
  marshalEvent := fun event => .ok event
  decode := fun body => if body = "" then .error .decode else .ok body
  isRequestValid := fun env applicationID =>
    if env = applicationID then none else some .authentication
  dispatch := fun env _ =>
    if env = "amzn1.ask.skill.games" then .ok .unencodable else .ok (.speech "Hello world")
  marshalResponse := fun response =>
    match response with
    | .speech text => .ok text
    | .unencodable => .error .encode

/-- A skill configured for the application "amzn1.ask.skill.hello". -/
def sampleSkill (skipValidation verbose : Bool) : Skill Unit :=
  { ApplicationID := "amzn1.ask.skill.hello", SkipValidation := skipValidation,
    Verbose := verbose, callbacks := () }

/-- An intent request naming the given intent. -/
def sampleIntentRequest (name : String) : IntentRequest :=
  { Intent := { Name := name } }

/-! # Theorems -/

/-! ## Heap and map facts -/

theorem heap_alloc_new (h : Heap) (o : Obj) : (h ++ [o])[h.length]? = some o := by
  simp

theorem heap_alloc_old (h : Heap) (o : Obj) (a : Ref) (ha : a ≠ h.length) :
    (h ++ [o])[a]? = h[a]? := by
  rcases Nat.lt_or_gt_of_ne ha with hlt | hgt
  · exact List.getElem?_append_left hlt
  · have h1 : (h ++ [o]).length ≤ a := by simp; omega
    have h2 : h.length ≤ a := by omega
    rw [List.getElem?_eq_none h1, List.getElem?_eq_none h2]

theorem heap_lt_of_get {h : Heap} {a : Ref} {o : Obj} (ha : h[a]? = some o) : a < h.length := by
  rcases Nat.lt_or_ge a h.length with hlt | hge
  · exact hlt
  · rw [List.getElem?_eq_none hge] at ha
    cases ha

theorem heap_fresh (h : Heap) : h[h.length]? = none :=
  List.getElem?_eq_none (Nat.le_refl _)

theorem finmap_keys_insert {V : Type} (m : Finmap (fun _ : String => V)) (k : String) (v : V) :
    (m.insert k v).keys = Insert.insert k m.keys := by
  ext a
  simp [Finmap.mem_keys, Finmap.mem_insert]

theorem mapLen_insert {V : Type} [DecidableEq V] (m : Finmap (fun _ : String => V)) (k : String) (v : V) :
    mapLen (some (m.insert k v)) =
      (if mapIndex (some m) k = none then mapLen (some m) + 1 else mapLen (some m)) := by
  simp only [mapLen, mapIndex, finmap_keys_insert]
  by_cases hk : k ∈ m
  · have hne : m.lookup k ≠ none := by
      rw [Ne, Finmap.lookup_eq_none]; exact not_not.mpr hk
    rw [if_neg hne, Finset.card_insert_of_mem (Finmap.mem_keys.mpr hk)]
  · have he : m.lookup k = none := Finmap.lookup_eq_none.mpr hk
    rw [if_pos he, Finset.card_insert_of_not_mem (fun hmem => hk (Finmap.mem_keys.mp hmem))]

/-- The heap left by a recognizer builder satisfies the builder's postcondition. -/
theorem registers_heap (h : Heap) (sid : Ref) (d : GameEngineStartInputDirective)
    (m : Finmap (fun _ : String => Ref)) (name : String) (o : Obj)
    (hsid : h[sid]? = some (.startInput d)) (hm : d.Recognizers = some m) :
    RegistersRecognizer h sid d name o
      (some ((h ++ [o]).set sid (.startInput { d with Recognizers := some (m.insert name h.length) }),
        h.length)) := by
  have hlt : sid < h.length := heap_lt_of_get hsid
  have hne : sid ≠ h.length := Nat.ne_of_lt hlt
  refine ⟨_, h.length, { d with Recognizers := some (m.insert name h.length) }, rfl,
    heap_fresh h, ?_, ?_, ?_, ?_, ?_, ?_, ?_⟩
  · rw [List.getElem?_set_ne hne]; exact heap_alloc_new h o
  · have hlt1 : sid < (h ++ [o]).length := by
      rw [List.length_append]; exact Nat.lt_add_right _ hlt
    exact List.getElem?_set_self hlt1
  · simp [mapIndex]
  · intro k hk
    simp [mapIndex, hm, Finmap.lookup_insert_of_ne _ hk]
  · show mapLen (some (m.insert name h.length)) = _
    rw [hm]; exact mapLen_insert m name h.length
  · rfl
  · intro a ha hap
    rw [List.getElem?_set_ne (Ne.symm ha)]
    exact heap_alloc_old h o a hap

theorem heap_alloc_keeps {h : Heap} {a : Ref} {x : Obj} (o : Obj) (ha : h[a]? = some x) :
    (h ++ [o])[a]? = some x := by
  rw [heap_alloc_old h o a (Nat.ne_of_lt (heap_lt_of_get ha))]; exact ha

/-! ## Game-engine directive builders -/

theorem pattern_registers (h : Heap) (sid : Ref) (d : GameEngineStartInputDirective)
    (m : Finmap (fun _ : String => Ref)) (n : String)
    (hsid : h[sid]? = some (.startInput d)) (hm : d.Recognizers = some m) :
    RegistersRecognizer h sid d n (.patternRec { Type_ := "match", Pattern := some [] })
      (GameEngineStartInputDirective.AddPatternRecognizer sid h n) := by
  have hs := heap_alloc_keeps (Obj.patternRec { Type_ := "match", Pattern := some [] }) hsid
  simp only [GameEngineStartInputDirective.AddPatternRecognizer, Heap.alloc, hs, mapAssign, hm,
    Heap.store]
  exact registers_heap h sid d m n _ hsid hm

theorem deviation_registers (h : Heap) (sid : Ref) (d : GameEngineStartInputDirective)
    (m : Finmap (fun _ : String => Ref)) (n ref : String)
    (hsid : h[sid]? = some (.startInput d)) (hm : d.Recognizers = some m) :
    RegistersRecognizer h sid d n (.deviationRec { Type_ := "deviation", Recognizer := ref })
      (GameEngineStartInputDirective.AddDeviationRecognizer sid h n ref) := by
  have hs := heap_alloc_keeps (Obj.deviationRec { Type_ := "deviation", Recognizer := ref }) hsid
  simp only [GameEngineStartInputDirective.AddDeviationRecognizer, Heap.alloc, hs, mapAssign,
    hm, Heap.store]
  exact registers_heap h sid d m n _ hsid hm

theorem progress_registers (h : Heap) (sid : Ref) (d : GameEngineStartInputDirective)
    (m : Finmap (fun _ : String => Ref)) (n ref : String) (completion : Int)
    (hsid : h[sid]? = some (.startInput d)) (hm : d.Recognizers = some m) :
    RegistersRecognizer h sid d n
      (.progressRec { Type_ := "progress", Recognizer := ref, Completion := completion })
      (GameEngineStartInputDirective.AddProgressRecognizer sid h n ref completion) := by
  have hs := heap_alloc_keeps
    (Obj.progressRec { Type_ := "progress", Recognizer := ref, Completion := completion }) hsid
  simp only [GameEngineStartInputDirective.AddProgressRecognizer, Heap.alloc, hs, mapAssign,
    hm, Heap.store]
  exact registers_heap h sid d m n _ hsid hm

/-- `builtHeap` is the heap its description says: the two builder calls on the empty heap. -/
theorem builtHeap_built :
    GameEngineStartInputDirective.AddPatternRecognizer
      (({} : Response).AddGameEngineStartInputDirective [] 5000).2.2
      (({} : Response).AddGameEngineStartInputDirective [] 5000).1 "r1" = some (builtHeap, 1) := by
  decide

/-- On a directive whose Recognizers mapping is nil the recognizer builders panic. -/
theorem pattern_recognizer_nil_map (h : Heap) (sid : Ref) (d : GameEngineStartInputDirective)
    (n : String) (hsid : h[sid]? = some (.startInput d)) (hm : d.Recognizers = none) :
    GameEngineStartInputDirective.AddPatternRecognizer sid h n = none := by
  have hs := heap_alloc_keeps (Obj.patternRec { Type_ := "match", Pattern := some [] }) hsid
  simp only [GameEngineStartInputDirective.AddPatternRecognizer, Heap.alloc, hs, mapAssign, hm]

/-- C1: for every response, heap, timeout `t` and name `n`, calling
`AddGameEngineStartInputDirective(t)` and then `AddPatternRecognizer(n)` on the returned directive
succeeds and leaves that directive with a Recognizers mapping of exactly one entry, under key `n`,
whose value points to a pattern recognizer with Type "match" and an empty, non-nil Pattern. -/
theorem start_input_then_pattern_recognizer (r : Response) (h : Heap) (t : Int) (n : String) :
    ∃ h2 p m dir,
      GameEngineStartInputDirective.AddPatternRecognizer
        (r.AddGameEngineStartInputDirective h t).2.2
        (r.AddGameEngineStartInputDirective h t).1 n = some (h2, p) ∧
      h2[(r.AddGameEngineStartInputDirective h t).2.2]? = some (.startInput dir) ∧
      dir.Recognizers = some m ∧ m.keys = {n} ∧ mapLen dir.Recognizers = 1 ∧
      (∀ k, mapIndex dir.Recognizers k = if k = n then some p else none) ∧
      h2[p]? = some (.patternRec { Type_ := "match", Pattern := some [] }) := by
  have h0 : (r.AddGameEngineStartInputDirective h t).1[
      (r.AddGameEngineStartInputDirective h t).2.2]? = some (.startInput
        { Type_ := "GameEngine.StartInputHandler", Timeout := t, Recognizers := makeMap Ref }) :=
    heap_alloc_new h _
  obtain ⟨h2, p, d1, hres, _, hp, hsid, hn, hother, hlen, _, _⟩ :=
    pattern_registers _ _ _ ∅ n h0 rfl
  have hlook : ∀ k, mapIndex d1.Recognizers k = if k = n then some p else none := by
    intro k
    by_cases hk : k = n
    · rw [if_pos hk, hk]; exact hn
    · rw [if_neg hk, hother k hk]; rfl
  cases hR : d1.Recognizers with
  | none => rw [hR] at hn; cases hn
  | some m1 =>
    refine ⟨h2, p, m1, d1, hres, hsid, hR, ?_, ?_, hlook, hp⟩
    · ext k
      rw [Finmap.mem_keys, Finmap.mem_iff, Finset.mem_singleton]
      have hk := hlook k
      rw [hR] at hk
      simp only [mapIndex] at hk
      rw [hk]
      by_cases hkn : k = n
      · simp [hkn]
      · simp [hkn]
    · rw [hlen]; rfl

/-- C2: on a directive held at `sid` whose Recognizers mapping is non-nil, each of
`AddPatternRecognizer(n)`, `AddDeviationRecognizer(n, ref)` and
`AddProgressRecognizer(n, ref, completion)` succeeds, maps `n` to the newly built recognizer
(Type "match" with empty Pattern; Type "deviation" with Recognizer `ref`; Type "progress" with
Recognizer `ref` and Completion `completion`) whatever `n` was mapped to before, leaves every
other name and every other object as it was, and makes the mapping one longer exactly when `n`
was absent. -/
theorem recognizer_builders_register (h : Heap) (sid : Ref) (d : GameEngineStartInputDirective)
    (m : Finmap (fun _ : String => Ref)) (n ref : String) (completion : Int)
    (hsid : h[sid]? = some (.startInput d)) (hm : d.Recognizers = some m) :
    RegistersRecognizer h sid d n (.patternRec { Type_ := "match", Pattern := some [] })
      (GameEngineStartInputDirective.AddPatternRecognizer sid h n) ∧
    RegistersRecognizer h sid d n (.deviationRec { Type_ := "deviation", Recognizer := ref })
      (GameEngineStartInputDirective.AddDeviationRecognizer sid h n ref) ∧
    RegistersRecognizer h sid d n
      (.progressRec { Type_ := "progress", Recognizer := ref, Completion := completion })
      (GameEngineStartInputDirective.AddProgressRecognizer sid h n ref completion) :=
  ⟨pattern_registers h sid d m n hsid hm, deviation_registers h sid d m n ref hsid hm,
    progress_registers h sid d m n ref completion hsid hm⟩

/-- Witness for C2 on `sampleHeap`, where "r1" is already registered. -/
theorem recognizer_builders_register_witness :
    (sampleHeap[0]? = some (.startInput sampleDirective) ∧
      sampleDirective.Recognizers = some (Finmap.singleton "r1" 1)) ∧
    (RegistersRecognizer sampleHeap 0 sampleDirective "r1"
        (.patternRec { Type_ := "match", Pattern := some [] })
        (GameEngineStartInputDirective.AddPatternRecognizer 0 sampleHeap "r1") ∧
      RegistersRecognizer sampleHeap 0 sampleDirective "r1"
        (.deviationRec { Type_ := "deviation", Recognizer := "r0" })
        (GameEngineStartInputDirective.AddDeviationRecognizer 0 sampleHeap "r1" "r0") ∧
      RegistersRecognizer sampleHeap 0 sampleDirective "r1"
        (.progressRec { Type_ := "progress", Recognizer := "r0", Completion := 50 })
        (GameEngineStartInputDirective.AddProgressRecognizer 0 sampleHeap "r1" "r0" 50)) :=
  ⟨⟨rfl, rfl⟩,
    recognizer_builders_register sampleHeap 0 sampleDirective (Finmap.singleton "r1" 1)
      "r1" "r0" 50 rfl rfl⟩

theorem add_pattern_step (h : Heap) (gep : Ref) (r : GameEnginePatternRecognizer)
    (gadgetIds colors : Slice String) (action : String)
    (hgep : h[gep]? = some (.patternRec r)) :
    GameEnginePatternRecognizer.AddPattern gep h gadgetIds colors action =
      some (h.set gep (.patternRec { r with Pattern := some (sliceElems r.Pattern ++
        [{ GadgetIds := gadgetIds, Colors := colors, Action := action }]) })) := by
  simp only [GameEnginePatternRecognizer.AddPattern, hgep, Heap.store, goAppend]

theorem add_patterns_fold (gep : Ref) (steps : List (Slice String × Slice String × String)) :
    ∀ (h : Heap) (r : GameEnginePatternRecognizer), h[gep]? = some (.patternRec r) →
      ∃ h2 p2, addPatterns gep h steps = some h2 ∧
        h2[gep]? = some (.patternRec { r with Pattern := p2 }) ∧
        sliceElems p2 = sliceElems r.Pattern ++ steps.map patternStep ∧
        ∀ a, a ≠ gep → h2[a]? = h[a]? := by
  induction steps with
  | nil =>
    intro h r hgep
    exact ⟨h, r.Pattern, rfl, hgep, by simp, fun _ _ => rfl⟩
  | cons s rest ih =>
    intro h r hgep
    have hlt : gep < h.length := heap_lt_of_get hgep
    have hstep := add_pattern_step h gep r s.1 s.2.1 s.2.2 hgep
    obtain ⟨h2, p2, hrun, hget, helems, hframe⟩ :=
      ih (h.set gep (.patternRec { r with Pattern := some (sliceElems r.Pattern ++
        [{ GadgetIds := s.1, Colors := s.2.1, Action := s.2.2 }]) })) _
        (List.getElem?_set_self hlt)
    refine ⟨h2, p2, ?_, hget, ?_, ?_⟩
    · simp only [addPatterns, List.foldlM_cons, hstep, Option.bind_eq_bind, Option.some_bind]
      exact hrun
    · rw [helems]; simp [sliceElems, patternStep]
    · intro a ha
      rw [hframe a ha, List.getElem?_set_ne (Ne.symm ha)]

/-- C3: on a pattern recognizer held at `gep`, `AddPattern(gadgetIds, colors, action)` succeeds
and leaves Pattern equal to the former steps followed by the single step built from the three
arguments: one step longer, every earlier step at its position, the other fields of the
recognizer and every other object unchanged. Hence successive `AddPattern` calls extend the
Pattern by their steps in call order, and on a freshly built recognizer (Type "match", empty
Pattern) the Pattern is exactly the steps of the calls, in order. -/
theorem add_pattern_appends (h : Heap) (gep : Ref) (r : GameEnginePatternRecognizer)
    (gadgetIds colors : Slice String) (action : String)
    (steps : List (Slice String × Slice String × String))
    (hgep : h[gep]? = some (.patternRec r)) :
    (∃ h1 p1, GameEnginePatternRecognizer.AddPattern gep h gadgetIds colors action = some h1 ∧
      h1[gep]? = some (.patternRec { r with Pattern := some p1 }) ∧
      p1 = sliceElems r.Pattern ++
        [{ GadgetIds := gadgetIds, Colors := colors, Action := action }] ∧
      p1.length = (sliceElems r.Pattern).length + 1 ∧
      (∀ i, i < (sliceElems r.Pattern).length → p1[i]? = (sliceElems r.Pattern)[i]?) ∧
      ∀ a, a ≠ gep → h1[a]? = h[a]?) ∧
    (∃ h2 p2, addPatterns gep h steps = some h2 ∧
      h2[gep]? = some (.patternRec { r with Pattern := p2 }) ∧
      sliceElems p2 = sliceElems r.Pattern ++ steps.map patternStep ∧
      (r = { Type_ := "match", Pattern := some [] } → sliceElems p2 = steps.map patternStep) ∧
      ∀ a, a ≠ gep → h2[a]? = h[a]?) := by
  constructor
  · refine ⟨_, _, add_pattern_step h gep r gadgetIds colors action hgep,
      List.getElem?_set_self (heap_lt_of_get hgep), rfl, by simp, ?_, ?_⟩
    · intro i hi
      exact List.getElem?_append_left hi
    · intro a ha
      exact List.getElem?_set_ne (Ne.symm ha)
  · obtain ⟨h2, p2, hrun, hget, helems, hframe⟩ := add_patterns_fold gep steps h r hgep
    refine ⟨h2, p2, hrun, hget, helems, ?_, hframe⟩
    intro hr
    rw [helems, hr]; rfl

/-- Witness for C3: a second step is added to the one-step recognizer at reference 2 of
`sampleHeap`, and two further steps after it; on the freshly built recognizer at reference 1
of `builtHeap` two calls leave exactly their two steps, in call order. -/
theorem add_pattern_appends_witness :
    (sampleHeap[2]? = some (.patternRec sampleRecognizer) ∧
      ((∃ h1 p1, GameEnginePatternRecognizer.AddPattern 2 sampleHeap (some ["g1"]) none "up" =
          some h1 ∧
        h1[2]? = some (.patternRec { sampleRecognizer with Pattern := some p1 }) ∧
        p1 = sliceElems sampleRecognizer.Pattern ++
          [{ GadgetIds := some ["g1"], Colors := none, Action := "up" }] ∧
        p1.length = (sliceElems sampleRecognizer.Pattern).length + 1 ∧
        (∀ i, i < (sliceElems sampleRecognizer.Pattern).length →
          p1[i]? = (sliceElems sampleRecognizer.Pattern)[i]?) ∧
        ∀ a, a ≠ 2 → h1[a]? = sampleHeap[a]?) ∧
      (∃ h2 p2, addPatterns 2 sampleHeap [(none, none, "down"), (none, none, "up")] = some h2 ∧
        h2[2]? = some (.patternRec { sampleRecognizer with Pattern := p2 }) ∧
        sliceElems p2 = sliceElems sampleRecognizer.Pattern ++
          [(none, none, "down"), (none, none, "up")].map patternStep ∧
        (sampleRecognizer = { Type_ := "match", Pattern := some [] } →
          sliceElems p2 = [(none, none, "down"), (none, none, "up")].map patternStep) ∧
        ∀ a, a ≠ 2 → h2[a]? = sampleHeap[a]?))) ∧
    (builtHeap[1]? = some (.patternRec { Type_ := "match", Pattern := some [] }) ∧
      ∃ h2 p2, addPatterns 1 builtHeap [(none, none, "down"), (none, none, "up")] = some h2 ∧
        h2[1]? = some (.patternRec { Type_ := "match", Pattern := p2 }) ∧
        sliceElems p2 = [{ Action := "down" }, { Action := "up" }]) :=
  ⟨⟨rfl, add_pattern_appends sampleHeap 2 sampleRecognizer (some ["g1"]) none "up"
      [(none, none, "down"), (none, none, "up")] rfl⟩,
    rfl,
    match (add_pattern_appends builtHeap 1 { Type_ := "match", Pattern := some [] } none none ""
      [(none, none, "down"), (none, none, "up")] rfl).2 with
    | ⟨h2, p2, hrun, hget, _, hfresh, _⟩ => ⟨h2, p2, hrun, hget, hfresh rfl⟩⟩

theorem add_event_heap (h : Heap) (sid : Ref) (d : GameEngineStartInputDirective)
    (n : String) (b : Bool) (m : Slice String) (hsid : h[sid]? = some (.startInput d)) :
    GameEngineStartInputDirective.AddEvent sid h n b m =
      some ((h ++ [Obj.event { Meets := m, ShouldEndInputHandler := b }]).set sid
        (.startInput { d with Events := some (Finmap.insert n h.length
          (match d.Events with
           | none => ∅
           | some f => f)) }), h.length) := by
  have hs := heap_alloc_keeps (Obj.event { Meets := m, ShouldEndInputHandler := b }) hsid
  cases hE : d.Events with
  | none =>
    simp only [GameEngineStartInputDirective.AddEvent, Heap.alloc, hs, hE, mapAssign, makeMap,
      Heap.store]
  | some f =>
    simp only [GameEngineStartInputDirective.AddEvent, Heap.alloc, hs, hE, mapAssign,
      Heap.store]

/-- C4: on every start-input directive held at `sid`, its Events mapping nil or not,
`AddEvent(n, b, m)` succeeds for every list `m` of recognizer names, none of which is looked up
in Recognizers; afterwards Events maps `n` to a new event with Meets `m`,
ShouldEndInputHandler `b`, nil Fails, empty Reports and zero MaximumInvocations and
TriggerTimeMilliseconds; every other name keeps its event, and the directive's other fields
(Recognizers, Type, Timeout among them) and every other object are unchanged. -/
theorem add_event_registers (h : Heap) (sid : Ref) (d : GameEngineStartInputDirective)
    (n : String) (b : Bool) (m : Slice String) (hsid : h[sid]? = some (.startInput d)) :
    ∃ h1 e d1, GameEngineStartInputDirective.AddEvent sid h n b m = some (h1, e) ∧
      h[e]? = none ∧
      h1[e]? = some (.event { Meets := m, Fails := none, Reports := "",
                              ShouldEndInputHandler := b, MaximumInvocations := 0,
                              TriggerTimeMilliseconds := 0 }) ∧
      h1[sid]? = some (.startInput d1) ∧
      mapIndex d1.Events n = some e ∧
      (∀ k, k ≠ n → mapIndex d1.Events k = mapIndex d.Events k) ∧
      d1.Recognizers = d.Recognizers ∧ d1.Type_ = d.Type_ ∧ d1.Timeout = d.Timeout ∧
      d1 = { d with Events := d1.Events } ∧
      ∀ a, a ≠ sid → a ≠ e → h1[a]? = h[a]? := by
  have hlt : sid < h.length := heap_lt_of_get hsid
  have hlt1 : sid < (h ++ [Obj.event { Meets := m, ShouldEndInputHandler := b }]).length := by
    rw [List.length_append]; exact Nat.lt_add_right _ hlt
  refine ⟨_, h.length, _, add_event_heap h sid d n b m hsid, heap_fresh h, ?_,
    List.getElem?_set_self hlt1, ?_, ?_, rfl, rfl, rfl, rfl, ?_⟩
  · rw [List.getElem?_set_ne (Nat.ne_of_lt hlt)]; exact heap_alloc_new h _
  · simp [mapIndex]
  · intro k hk
    cases hE : d.Events with
    | none => simp [mapIndex, Finmap.lookup_insert_of_ne _ hk]
    | some f => simp [mapIndex, Finmap.lookup_insert_of_ne _ hk]
  · intro a ha hae
    rw [List.getElem?_set_ne (Ne.symm ha)]
    exact heap_alloc_old h _ a hae

/-- Witness for C4 on the directive of `sampleHeap`, whose Events mapping is nil and which has
no recognizer named "ghost". -/
theorem add_event_registers_witness :
    (sampleHeap[0]? = some (.startInput sampleDirective) ∧ sampleDirective.Events = none ∧
      mapIndex sampleDirective.Recognizers "ghost" = none) ∧
    ∃ h1 e d1,
      GameEngineStartInputDirective.AddEvent 0 sampleHeap "done" true (some ["ghost"]) =
        some (h1, e) ∧
      sampleHeap[e]? = none ∧
      h1[e]? = some (.event { Meets := some ["ghost"], Fails := none, Reports := "",
                              ShouldEndInputHandler := true, MaximumInvocations := 0,
                              TriggerTimeMilliseconds := 0 }) ∧
      h1[0]? = some (.startInput d1) ∧
      mapIndex d1.Events "done" = some e ∧
      (∀ k, k ≠ "done" → mapIndex d1.Events k = mapIndex sampleDirective.Events k) ∧
      d1.Recognizers = sampleDirective.Recognizers ∧ d1.Type_ = sampleDirective.Type_ ∧
      d1.Timeout = sampleDirective.Timeout ∧
      d1 = { sampleDirective with Events := d1.Events } ∧
      ∀ a, a ≠ 0 → a ≠ e → h1[a]? = sampleHeap[a]? :=
  ⟨⟨rfl, rfl, by decide⟩,
    add_event_registers sampleHeap 0 sampleDirective "done" true (some ["ghost"]) rfl⟩

/-- C5: `AddGameEngineStartInputDirective(t)` leaves the response's directive sequence equal to
the former one followed by exactly one reference, the returned one, which is new and holds a
directive with Type "GameEngine.StartInputHandler", Timeout `t` and an empty non-nil Recognizers
mapping; `AddGameEngineStopInputHandlerDirective(id)` does the same with a directive of Type
"GameEngine.StopInputHandler" and OriginatingRequestID `id`; both leave every other field of the
response and every object already in the heap unchanged, and two successive calls leave their
two directives at the end of the sequence in call order. -/
theorem directive_builders_append (r : Response) (h : Heap) (t : Int) (id : String) :
    (sliceElems (r.AddGameEngineStartInputDirective h t).2.1.Directives =
        sliceElems r.Directives ++ [(r.AddGameEngineStartInputDirective h t).2.2] ∧
      (r.AddGameEngineStartInputDirective h t).1[(r.AddGameEngineStartInputDirective h t).2.2]? =
        some (.startInput { Type_ := "GameEngine.StartInputHandler", Timeout := t,
                            Recognizers := some ∅ }) ∧
      h[(r.AddGameEngineStartInputDirective h t).2.2]? = none ∧
      (r.AddGameEngineStartInputDirective h t).2.1 =
        { r with Directives := (r.AddGameEngineStartInputDirective h t).2.1.Directives } ∧
      ∀ a, a ≠ (r.AddGameEngineStartInputDirective h t).2.2 →
        (r.AddGameEngineStartInputDirective h t).1[a]? = h[a]?) ∧
    (sliceElems (r.AddGameEngineStopInputHandlerDirective h id).2.1.Directives =
        sliceElems r.Directives ++ [(r.AddGameEngineStopInputHandlerDirective h id).2.2] ∧
      (r.AddGameEngineStopInputHandlerDirective h id).1[
          (r.AddGameEngineStopInputHandlerDirective h id).2.2]? =
        some (.stopInput { Type_ := "GameEngine.StopInputHandler",
                           OriginatingRequestID := id }) ∧
      h[(r.AddGameEngineStopInputHandlerDirective h id).2.2]? = none ∧
      (r.AddGameEngineStopInputHandlerDirective h id).2.1 =
        { r with Directives := (r.AddGameEngineStopInputHandlerDirective h id).2.1.Directives } ∧
      ∀ a, a ≠ (r.AddGameEngineStopInputHandlerDirective h id).2.2 →
        (r.AddGameEngineStopInputHandlerDirective h id).1[a]? = h[a]?) ∧
    (sliceElems (((r.AddGameEngineStartInputDirective h t).2.1
          ).AddGameEngineStopInputHandlerDirective
          (r.AddGameEngineStartInputDirective h t).1 id).2.1.Directives =
        sliceElems r.Directives ++ [(r.AddGameEngineStartInputDirective h t).2.2,
          (((r.AddGameEngineStartInputDirective h t).2.1
            ).AddGameEngineStopInputHandlerDirective
            (r.AddGameEngineStartInputDirective h t).1 id).2.2] ∧
      (r.AddGameEngineStartInputDirective h t).2.2 ≠
        (((r.AddGameEngineStartInputDirective h t).2.1
          ).AddGameEngineStopInputHandlerDirective
          (r.AddGameEngineStartInputDirective h t).1 id).2.2) := by
  refine ⟨⟨rfl, heap_alloc_new h _, heap_fresh h, rfl, fun a ha => heap_alloc_old h _ a ha⟩,
    ⟨rfl, heap_alloc_new h _, heap_fresh h, rfl, fun a ha => heap_alloc_old h _ a ha⟩, ?_, ?_⟩
  · simp [Response.AddGameEngineStartInputDirective,
      Response.AddGameEngineStopInputHandlerDirective, Response.AddDirective, Heap.alloc,
      goAppend, sliceElems]
  · simp [Response.AddGameEngineStartInputDirective,
      Response.AddGameEngineStopInputHandlerDirective, Heap.alloc]

/-! ## Lambda adapter -/

theorem lambda_decode_error {Event Envelope Resp Err Callbacks : Type}
    (rt : Runtime Event Envelope Resp Err Callbacks) (skill : Skill Callbacks) (event : Event)
    (err : Err) (hdec : rt.decode (bodyBytes rt event) = .error err) :
    skill.GetLambdaSkillHandler rt event =
      (.error err, if skill.Verbose then [.log ["--> Request: ", bodyBytes rt event]] else []) := by
  simp only [Skill.GetLambdaSkillHandler, hdec]

theorem lambda_invalid {Event Envelope Resp Err Callbacks : Type}
    (rt : Runtime Event Envelope Resp Err Callbacks) (skill : Skill Callbacks) (event : Event)
    (env : Envelope) (err : Err) (hdec : rt.decode (bodyBytes rt event) = .ok env)
    (hskip : skill.SkipValidation = false)
    (hval : rt.isRequestValid env skill.ApplicationID = some err) :
    skill.GetLambdaSkillHandler rt event =
      (.error err, (if skill.Verbose then [.log ["--> Request: ", bodyBytes rt event]] else []) ++
        [.isRequestValid env skill.ApplicationID]) := by
  simp [Skill.GetLambdaSkillHandler, hdec, hskip, hval]

/-- C6: in the Lambda handler, when decoding the event fails the handler returns no result and
the decode error, and neither `isRequestValid` nor `handleRequest` is called; when the event
decodes, validation is not skipped and `isRequestValid(skill.ApplicationID)` reports an error,
the handler returns no result and exactly that error, and `handleRequest` is not called. -/
theorem lambda_errors_surface {Event Envelope Resp Err Callbacks : Type}
    (rt : Runtime Event Envelope Resp Err Callbacks) (skill : Skill Callbacks) (event : Event) :
    (∀ err, rt.decode (bodyBytes rt event) = .error err →
      (skill.GetLambdaSkillHandler rt event).1 = .error err ∧
      ∀ e ∈ (skill.GetLambdaSkillHandler rt event).2,
        e.isValidation = false ∧ e.isDispatch = false) ∧
    (∀ env err, rt.decode (bodyBytes rt event) = .ok env → skill.SkipValidation = false →
      rt.isRequestValid env skill.ApplicationID = some err →
      (skill.GetLambdaSkillHandler rt event).1 = .error err ∧
      ∀ e ∈ (skill.GetLambdaSkillHandler rt event).2, e.isDispatch = false) := by
  constructor
  · intro err hdec
    rw [lambda_decode_error rt skill event err hdec]
    refine ⟨rfl, ?_⟩
    intro e he
    cases hV : skill.Verbose <;> simp [hV] at he
    subst he
    exact ⟨rfl, rfl⟩
  · intro env err hdec hskip hval
    rw [lambda_invalid rt skill event env err hdec hskip hval]
    refine ⟨rfl, ?_⟩
    intro e he
    cases hV : skill.Verbose <;> simp [hV] at he
    · subst he; rfl
    · rcases he with he | he <;> subst he <;> rfl

/-- Witness for C6: with `sampleRuntime`, the empty event fails to decode, and an event
declaring another application than the skill's fails validation. -/
theorem lambda_errors_surface_witness :
    (sampleRuntime.decode (bodyBytes sampleRuntime "") = .error .decode ∧
      ((sampleSkill false true).GetLambdaSkillHandler sampleRuntime "").1 = .error .decode ∧
      ∀ e ∈ ((sampleSkill false true).GetLambdaSkillHandler sampleRuntime "").2,
        e.isValidation = false ∧ e.isDispatch = false) ∧
    ((sampleRuntime.decode (bodyBytes sampleRuntime "amzn1.ask.skill.other") =
        .ok "amzn1.ask.skill.other" ∧
      (sampleSkill false true).SkipValidation = false ∧
      sampleRuntime.isRequestValid "amzn1.ask.skill.other" (sampleSkill false true).ApplicationID =
        some .authentication) ∧
      ((sampleSkill false true).GetLambdaSkillHandler sampleRuntime "amzn1.ask.skill.other").1 =
        .error .authentication ∧
      ∀ e ∈ ((sampleSkill false true).GetLambdaSkillHandler sampleRuntime
          "amzn1.ask.skill.other").2, e.isDispatch = false) :=
  ⟨⟨rfl, (lambda_errors_surface sampleRuntime (sampleSkill false true) "").1 .decode rfl⟩,
    ⟨rfl, rfl, rfl⟩,
    (lambda_errors_surface sampleRuntime (sampleSkill false true) "amzn1.ask.skill.other").2
      "amzn1.ask.skill.other" .authentication rfl rfl rfl⟩

/-- The handler's outcome when every response it obtains can be marshalled, or logging is off:
the decode error, else the validation error unless validation is skipped, else the outcome of
`handleRequest`. -/
theorem lambda_outcome {Event Envelope Resp Err Callbacks : Type}
    (rt : Runtime Event Envelope Resp Err Callbacks) (skill : Skill Callbacks) (event : Event)
    (hm : skill.Verbose = true → ∀ env r, rt.decode (bodyBytes rt event) = .ok env →
      (skill.SkipValidation = true ∨ rt.isRequestValid env skill.ApplicationID = none) →
      rt.dispatch env skill.callbacks = .ok r → ∃ j, rt.marshalResponse r = .ok j) :
    (skill.GetLambdaSkillHandler rt event).1 =
      (match rt.decode (bodyBytes rt event) with
       | .error err => .error err
       | .ok env =>
         match (if skill.SkipValidation then none
                else rt.isRequestValid env skill.ApplicationID) with
         | some err => .error err
         | none => rt.dispatch env skill.callbacks) := by
  cases hdec : rt.decode (bodyBytes rt event) with
  | error err => simp [Skill.GetLambdaSkillHandler, hdec]
  | ok env =>
    cases hskip : skill.SkipValidation with
    | true =>
      cases hd : rt.dispatch env skill.callbacks with
      | error err => simp [Skill.GetLambdaSkillHandler, hdec, hskip, handleRequest, hd]
      | ok r =>
        cases hV : skill.Verbose with
        | false => simp [Skill.GetLambdaSkillHandler, hdec, hskip, handleRequest, hd, hV]
        | true =>
          obtain ⟨j, hj⟩ := hm hV env r hdec (Or.inl hskip) hd
          simp [Skill.GetLambdaSkillHandler, hdec, hskip, handleRequest, hd, hV, hj]
    | false =>
      cases hval : rt.isRequestValid env skill.ApplicationID with
      | some err => simp [Skill.GetLambdaSkillHandler, hdec, hskip, hval]
      | none =>
        cases hd : rt.dispatch env skill.callbacks with
        | error err => simp [Skill.GetLambdaSkillHandler, hdec, hskip, hval, handleRequest, hd]
        | ok r =>
          cases hV : skill.Verbose with
          | false =>
            simp [Skill.GetLambdaSkillHandler, hdec, hskip, hval, handleRequest, hd, hV]
          | true =>
            obtain ⟨j, hj⟩ := hm hV env r hdec (Or.inr hval) hd
            simp [Skill.GetLambdaSkillHandler, hdec, hskip, hval, handleRequest, hd, hV, hj]

/-- The effects of a run that skips validation hold no call of `isRequestValid`. -/
theorem lambda_skip_no_validation {Event Envelope Resp Err Callbacks : Type}
    (rt : Runtime Event Envelope Resp Err Callbacks) (skill : Skill Callbacks) (event : Event)
    (hskip : skill.SkipValidation = true) :
    ∀ e ∈ (skill.GetLambdaSkillHandler rt event).2, e.isValidation = false := by
  intro e he
  simp only [Skill.GetLambdaSkillHandler, hskip] at he
  cases hdec : rt.decode (bodyBytes rt event) with
  | error err =>
    cases hV : skill.Verbose <;> simp [hdec, hV] at he
    subst he; rfl
  | ok env =>
    cases hd : handleRequest rt env skill with
    | error err =>
      cases hV : skill.Verbose <;> simp [hdec, hV, hd] at he
      · subst he; rfl
      · rcases he with he | he <;> subst he <;> rfl
    | ok r =>
      cases hV : skill.Verbose
      · simp [hdec, hV, hd] at he
        subst he; rfl
      · cases hj : rt.marshalResponse r with
        | error err =>
          simp [hdec, hV, hd, hj] at he
          rcases he with he | he <;> subst he <;> rfl
        | ok j =>
          simp [hdec, hV, hd, hj] at he
          rcases he with he | he | he <;> subst he <;> rfl

/-- A run that skips validation is the same whatever `isRequestValid` would answer. -/
theorem lambda_skip_any_validator {Event Envelope Resp Err Callbacks : Type}
    (rt : Runtime Event Envelope Resp Err Callbacks) (skill : Skill Callbacks) (event : Event)
    (hskip : skill.SkipValidation = true) (v : Envelope → String → Option Err) :
    skill.GetLambdaSkillHandler { rt with isRequestValid := v } event =
      skill.GetLambdaSkillHandler rt event := by
  simp [Skill.GetLambdaSkillHandler, hskip, bodyBytes, handleRequest]

/-- C7, counterexample: with validation skipped and Verbose set, an event that decodes and whose
response cannot be marshalled makes the handler return the marshalling error, which is not the
outcome of `handleRequest` on the decoded envelope. -/
theorem lambda_skip_validation_counterexample :
    (sampleSkill true true).SkipValidation = true ∧
    sampleRuntime.decode (bodyBytes sampleRuntime "amzn1.ask.skill.games") =
      .ok "amzn1.ask.skill.games" ∧
    handleRequest sampleRuntime "amzn1.ask.skill.games" (sampleSkill true true) =
      .ok .unencodable ∧
    ((sampleSkill true true).GetLambdaSkillHandler sampleRuntime "amzn1.ask.skill.games").1 =
      .error .encode ∧
    ((sampleSkill true true).GetLambdaSkillHandler sampleRuntime "amzn1.ask.skill.games").1 ≠
      handleRequest sampleRuntime "amzn1.ask.skill.games" (sampleSkill true true) :=
  ⟨rfl, rfl, rfl, rfl, fun hne => nomatch hne⟩

/-- C7, amended: in the Lambda handler, for a skill with SkipValidation set and an event that
decodes, `isRequestValid` is never called and the run is the same whatever it would answer, so
no validation error can be returned; the handler's outcome is exactly the outcome of
`handleRequest` on the decoded envelope provided Verbose is off or the response of
`handleRequest` can be marshalled, and with Verbose on and a response that cannot be marshalled it
is the marshalling error. -/
theorem lambda_skip_validation {Event Envelope Resp Err Callbacks : Type}
    (rt : Runtime Event Envelope Resp Err Callbacks) (skill : Skill Callbacks) (event : Event)
    (env : Envelope) (hskip : skill.SkipValidation = true)
    (hdec : rt.decode (bodyBytes rt event) = .ok env) :
    (∀ e ∈ (skill.GetLambdaSkillHandler rt event).2, e.isValidation = false) ∧
    (∀ v : Envelope → String → Option Err,
      skill.GetLambdaSkillHandler { rt with isRequestValid := v } event =
        skill.GetLambdaSkillHandler rt event) ∧
    ((skill.Verbose = true → ∀ r, handleRequest rt env skill = .ok r →
        ∃ j, rt.marshalResponse r = .ok j) →
      (skill.GetLambdaSkillHandler rt event).1 = handleRequest rt env skill) ∧
    (∀ r err, skill.Verbose = true → handleRequest rt env skill = .ok r →
      rt.marshalResponse r = .error err →
      (skill.GetLambdaSkillHandler rt event).1 = .error err) := by
  refine ⟨lambda_skip_no_validation rt skill event hskip,
    lambda_skip_any_validator rt skill event hskip, ?_, ?_⟩
  · intro hm
    have hm1 : skill.Verbose = true → ∀ env1 r, rt.decode (bodyBytes rt event) = .ok env1 →
        (skill.SkipValidation = true ∨ rt.isRequestValid env1 skill.ApplicationID = none) →
        rt.dispatch env1 skill.callbacks = .ok r → ∃ j, rt.marshalResponse r = .ok j := by
      intro hV env1 r hdec1 _ hd
      rw [hdec] at hdec1
      cases hdec1
      exact hm hV r hd
    rw [lambda_outcome rt skill event hm1, hdec]
    simp [hskip, handleRequest]
  · intro r err hV hd hj
    simp [Skill.GetLambdaSkillHandler, hdec, hskip, hV, hd, hj]

/-- Witness for C7 (amended): validation is skipped, Verbose is on, the event declares another
application than the skill's, and its response can be marshalled. -/
theorem lambda_skip_validation_witness :
    ((sampleSkill true true).SkipValidation = true ∧
      sampleRuntime.decode (bodyBytes sampleRuntime "amzn1.ask.skill.other") =
        .ok "amzn1.ask.skill.other" ∧
      sampleRuntime.isRequestValid "amzn1.ask.skill.other" (sampleSkill true true).ApplicationID =
        some .authentication) ∧
    (∀ e ∈ ((sampleSkill true true).GetLambdaSkillHandler sampleRuntime
        "amzn1.ask.skill.other").2, e.isValidation = false) ∧
    ((sampleSkill true true).GetLambdaSkillHandler sampleRuntime "amzn1.ask.skill.other").1 =
      handleRequest sampleRuntime "amzn1.ask.skill.other" (sampleSkill true true) :=
  ⟨⟨rfl, rfl, rfl⟩,
    (lambda_skip_validation sampleRuntime (sampleSkill true true) "amzn1.ask.skill.other"
      "amzn1.ask.skill.other" rfl rfl).1,
    (lambda_skip_validation sampleRuntime (sampleSkill true true) "amzn1.ask.skill.other"
      "amzn1.ask.skill.other" rfl rfl).2.2.1
      (fun _ r hr => ⟨"Hello world", by cases hr; rfl⟩)⟩

/-- C10: the result and error returned by the Lambda handler do not depend on the Verbose flag
whenever every response the handler obtains can be marshalled: two skills that differ at most
in Verbose return the same outcome on every such event, and on every event on which the handler
fails before obtaining a response. -/
theorem lambda_verbose_irrelevant {Event Envelope Resp Err Callbacks : Type}
    (rt : Runtime Event Envelope Resp Err Callbacks) (s1 s2 : Skill Callbacks) (event : Event)
    (hid : s1.ApplicationID = s2.ApplicationID) (hskip : s1.SkipValidation = s2.SkipValidation)
    (hcb : s1.callbacks = s2.callbacks)
    (hm : ∀ env r, rt.decode (bodyBytes rt event) = .ok env →
      (s1.SkipValidation = true ∨ rt.isRequestValid env s1.ApplicationID = none) →
      handleRequest rt env s1 = .ok r → ∃ j, rt.marshalResponse r = .ok j) :
    (s1.GetLambdaSkillHandler rt event).1 = (s2.GetLambdaSkillHandler rt event).1 := by
  rw [lambda_outcome rt s1 event (fun _ => hm), lambda_outcome rt s2 event, hid, hskip, hcb]
  intro _ env r hdec hv hd
  rw [← hid, ← hskip] at hv
  rw [← hcb] at hd
  exact hm env r hdec hv hd

/-- Witness for C10: the same event handled with Verbose on and with Verbose off. -/
theorem lambda_verbose_irrelevant_witness :
    (∀ env r, sampleRuntime.decode (bodyBytes sampleRuntime "amzn1.ask.skill.hello") = .ok env →
      ((sampleSkill false true).SkipValidation = true ∨
        sampleRuntime.isRequestValid env (sampleSkill false true).ApplicationID = none) →
      handleRequest sampleRuntime env (sampleSkill false true) = .ok r →
      ∃ j, sampleRuntime.marshalResponse r = .ok j) ∧
    ((sampleSkill false true).GetLambdaSkillHandler sampleRuntime "amzn1.ask.skill.hello").1 =
      ((sampleSkill false false).GetLambdaSkillHandler sampleRuntime "amzn1.ask.skill.hello").1 ∧
    ((sampleSkill false true).GetLambdaSkillHandler sampleRuntime "amzn1.ask.skill.hello").1 =
      .ok (.speech "Hello world") :=
  have hm : ∀ env r,
      sampleRuntime.decode (bodyBytes sampleRuntime "amzn1.ask.skill.hello") = .ok env →
      ((sampleSkill false true).SkipValidation = true ∨
        sampleRuntime.isRequestValid env (sampleSkill false true).ApplicationID = none) →
      handleRequest sampleRuntime env (sampleSkill false true) = .ok r →
      ∃ j, sampleRuntime.marshalResponse r = .ok j := by
    intro env r hdec _ hd
    have henv : env = "amzn1.ask.skill.hello" := by cases hdec; rfl
    subst henv
    cases hd
    exact ⟨"Hello world", rfl⟩
  ⟨hm, lambda_verbose_irrelevant sampleRuntime (sampleSkill false true) (sampleSkill false false)
    "amzn1.ask.skill.hello" rfl rfl rfl hm, rfl⟩

/-! ## Example skill -/

/-- C8: in the example skill's `intentDispatchHandler`, an intent request named
"HelloWorldIntent" runs `helloWorldIntentHandler` once on the response passed in and nothing
else, logging nothing; from an empty response the result has output speech "Hello world", a
card with title "HelloWorld" and content "Hello world", no reprompt and no directives, which is
the result of neither of the other two handlers. -/
theorem dispatch_hello_world {RequestEnvelope : Type} (requestEnvelope : RequestEnvelope)
    (request : IntentRequest) (response : OutgoingResponse)
    (hname : request.Intent.Name = "HelloWorldIntent") :
    intentDispatchHandler requestEnvelope request response =
      (helloWorldIntentHandler request response, []) ∧
    (intentDispatchHandler requestEnvelope request {}).1.Response =
      { OutputSpeech := some "Hello world",
        Card := some { Title := "HelloWorld", Content := "Hello world" },
        Reprompt := none, Directives := none } ∧
    (intentDispatchHandler requestEnvelope request {}).1 ≠
      cancelAndStopIntentHandler request {} ∧
    (intentDispatchHandler requestEnvelope request {}).1 ≠ helpIntentHandler request {} := by
  have hrun : ∀ resp, intentDispatchHandler requestEnvelope request resp =
      (helloWorldIntentHandler request resp, []) := by
    intro resp
    simp only [intentDispatchHandler, hname, if_true]
  refine ⟨hrun response, ?_, ?_, ?_⟩
  · rw [hrun]; rfl
  · rw [hrun]
    intro hne
    have hs := congrArg (fun o => o.Response.OutputSpeech) hne
    simp [helloWorldIntentHandler, cancelAndStopIntentHandler, Response.SetOutputSpeech,
      Response.SimpleCard] at hs
  · rw [hrun]
    intro hne
    have hs := congrArg (fun o => o.Response.OutputSpeech) hne
    simp [helloWorldIntentHandler, helpIntentHandler, Response.SetOutputSpeech,
      Response.SetReprompt, Response.SimpleCard] at hs

/-- Witness for C8 on the request `sampleIntentRequest "HelloWorldIntent"`. -/
theorem dispatch_hello_world_witness :
    (sampleIntentRequest "HelloWorldIntent").Intent.Name = "HelloWorldIntent" ∧
    (intentDispatchHandler () (sampleIntentRequest "HelloWorldIntent") {}).1.Response =
      { OutputSpeech := some "Hello world",
        Card := some { Title := "HelloWorld", Content := "Hello world" },
        Reprompt := none, Directives := none } :=
  ⟨rfl, (dispatch_hello_world () (sampleIntentRequest "HelloWorldIntent") {} rfl).2.1⟩

/-- C9: in the example skill's `intentDispatchHandler`, an intent request whose name is none of
"HelloWorldIntent", "AMAZON.StopIntent", "AMAZON.CancelIntent" and "AMAZON.HelpIntent" runs no
handler: the response passed in is returned as it was, the only effect being the log line
"Unknown intent!" with the name; so an empty response stays without output speech, card,
reprompt and directives. -/
theorem dispatch_unknown_intent {RequestEnvelope : Type} (requestEnvelope : RequestEnvelope)
    (request : IntentRequest) (response : OutgoingResponse)
    (h1 : request.Intent.Name ≠ "HelloWorldIntent")
    (h2 : request.Intent.Name ≠ "AMAZON.StopIntent")
    (h3 : request.Intent.Name ≠ "AMAZON.CancelIntent")
    (h4 : request.Intent.Name ≠ "AMAZON.HelpIntent") :
    intentDispatchHandler requestEnvelope request response =
      (response, [["Unknown intent!", request.Intent.Name]]) ∧
    (intentDispatchHandler requestEnvelope request {}).1.Response.OutputSpeech = none ∧
    (intentDispatchHandler requestEnvelope request {}).1.Response.Card = none ∧
    (intentDispatchHandler requestEnvelope request {}).1.Response.Reprompt = none ∧
    sliceElems (intentDispatchHandler requestEnvelope request {}).1.Response.Directives = [] := by
  have hrun : ∀ resp, intentDispatchHandler requestEnvelope request resp =
      (resp, [["Unknown intent!", request.Intent.Name]]) := by
    intro resp
    simp only [intentDispatchHandler, if_neg h1, if_neg h2, if_neg h3, if_neg h4]
  have hempty : (intentDispatchHandler requestEnvelope request {}).1 = {} := by rw [hrun]
  rw [hempty]
  exact ⟨hrun response, rfl, rfl, rfl, rfl⟩

/-- Witness for C9 on a request naming the intent "AMAZON.FallbackIntent". -/
theorem dispatch_unknown_intent_witness :
    ((sampleIntentRequest "AMAZON.FallbackIntent").Intent.Name ≠ "HelloWorldIntent" ∧
      (sampleIntentRequest "AMAZON.FallbackIntent").Intent.Name ≠ "AMAZON.StopIntent" ∧
      (sampleIntentRequest "AMAZON.FallbackIntent").Intent.Name ≠ "AMAZON.CancelIntent" ∧
      (sampleIntentRequest "AMAZON.FallbackIntent").Intent.Name ≠ "AMAZON.HelpIntent") ∧
    intentDispatchHandler () (sampleIntentRequest "AMAZON.FallbackIntent") {} =
      ({}, [["Unknown intent!", "AMAZON.FallbackIntent"]]) :=
  ⟨⟨by decide, by decide, by decide, by decide⟩,
    (dispatch_unknown_intent () (sampleIntentRequest "AMAZON.FallbackIntent") {}
      (by decide) (by decide) (by decide) (by decide)).1⟩

end Alexa
